import Mathlib

/-!
Shallow embedding of the pysnooz command-execution and connection-lifecycle
core (src/pysnooz/commands.py, device.py, transition.py, model.py, api.py),
together with theorems settling the frozen claims about it.

Python values are modelled as follows: `int` as `ℤ`, `bool` as `Bool`,
optional values (`X | None`) as `Option`, `datetime.timedelta` as its total
microsecond count (`Timedelta`), float arithmetic of the transition engine as
exact rational arithmetic (`ℚ`).  Calls performed against the device API
adapter are reified as an `ApiCall` trace in program order.
-/

/-- `MIN_DEVICE_VOLUME` from api.py. -/
def MIN_DEVICE_VOLUME : ℤ := 10

/-- `MIN_FAN_SPEED` from api.py. -/
def MIN_FAN_SPEED : ℤ := 10

/-- `MAX_RECONNECTION_ATTEMPTS` from device.py. -/
def MAX_RECONNECTION_ATTEMPTS : ℕ := 3

/-- `datetime.timedelta`, stored as its exact total number of microseconds
(the normalized days/seconds/microseconds triple is derived from it). -/
structure Timedelta where
  micros : ℤ
deriving DecidableEq, Repr

/-- Python's `timedelta.seconds` attribute: the seconds component of the
normalized representation, i.e. `(µs // 10^6) % 86400` with floor division
(Python `//` and `%` are Euclidean for positive divisors). -/
def tdSeconds (t : Timedelta) : ℤ :=
  (Int.ediv t.micros 1000000).emod 86400

/-- `SnoozDeviceState` from model.py: every field independently optional. -/
structure SnoozDeviceState where
  on_ : Option Bool := none
  volume : Option ℤ := none
  fan_on : Option Bool := none
  fan_speed : Option ℤ := none
  fan_auto_enabled : Option Bool := none
  temperature : Option ℚ := none
  target_temperature : Option ℤ := none
deriving DecidableEq, Repr

/-- `UnknownSnoozState` from model.py: the distinguished state with every
field unset. -/
def UnknownSnoozState : SnoozDeviceState := {}

/-- `SnoozDeviceAction` from commands.py. -/
inductive SnoozDeviceAction
  | getDeviceInfo
deriving DecidableEq, Repr

/-- `SnoozCommandData` from commands.py (field order as in the source). -/
structure SnoozCommandData where
  on_ : Option Bool := none
  volume : Option ℤ := none
  duration : Option Timedelta := none
  fan_on : Option Bool := none
  fan_speed : Option ℤ := none
  temp_target : Option ℤ := none
  auto_temp_enabled : Option Bool := none
  action : Option SnoozDeviceAction := none
deriving DecidableEq, Repr

/-- `turn_on(volume=, duration=)` from commands.py. -/
def turn_on (volume : Option ℤ) (duration : Option Timedelta) : SnoozCommandData :=
  { on_ := some true, volume := volume, duration := duration }

/-- `turn_off(duration=)` from commands.py. -/
def turn_off (duration : Option Timedelta) : SnoozCommandData :=
  { on_ := some false, duration := duration }

/-- `SnoozCommandResultStatus` from commands.py. -/
inductive SnoozCommandResultStatus
  | successful
  | cancelled
  | deviceUnavailable
  | unexpectedError
deriving DecidableEq, Repr

/-- One call against the `SnoozDeviceApi` adapter, in program order. -/
inductive ApiCall
  | setVolume (v : ℤ)
  | setPower (b : Bool)
  | setFanSpeed (v : ℤ)
  | setFanPower (b : Bool)
  | setAutoTempEnabled (enabled : Bool)
  | setAutoTempThreshold (t : ℤ)
  | readState
  | getInfo
deriving DecidableEq, Repr

/-- Python truthiness of a `bool | None` value (`None` and `False` falsy). -/
def pyTruthy : Option Bool → Bool
  | some true => true
  | _ => false

/-- Python `a or b` on `int | None` values: `a` is falsy when `None` or `0`. -/
def pyOrInt (a b : Option ℤ) : Option ℤ :=
  match a with
  | none => b
  | some v => if v = 0 then b else some v

/-! ## Command processor state machine (commands.py, `SnoozCommandProcessor`) -/

/-- `CommandProcessorState` from commands.py. -/
inductive CPState
  | idle
  | executing
  | complete
deriving DecidableEq, Repr

/-- The events (`transitions` triggers) registered on the processor machine in
`SnoozCommandProcessor.__init__`. -/
inductive CPEvent
  | startExecution
  | disconnected
  | cancelled
  | deviceUnavailable
  | unhandledException
  | executionComplete
deriving DecidableEq, Repr

/-- The transition table registered in `SnoozCommandProcessor.__init__`:
`none` means the machine has no transition for that event in that state
(the `transitions` library would raise `MachineError`). -/
def cpStep : CPState → CPEvent → Option CPState
  | .idle, .startExecution => some .executing
  | .idle, .disconnected => some .idle
  | .executing, .disconnected => some .idle
  | .idle, .cancelled => some .complete
  | .executing, .cancelled => some .complete
  | .idle, .deviceUnavailable => some .complete
  | .executing, .deviceUnavailable => some .complete
  | .idle, .unhandledException => some .complete
  | .executing, .unhandledException => some .complete
  | .executing, .executionComplete => some .complete
  | _, _ => none

/-- `_abort_with_status` / the `before` callbacks: the stamped result status
after a valid transition fired by the given event. -/
def applyStatus (st : SnoozCommandResultStatus) : CPEvent → SnoozCommandResultStatus
  | .cancelled => .cancelled
  | .deviceUnavailable => .deviceUnavailable
  | .unhandledException => .unexpectedError
  | _ => st

/-- Run the processor machine over an event trace; an event with no registered
transition leaves the state (and status) unchanged. -/
def cpRunFull : CPState × SnoozCommandResultStatus → List CPEvent →
    CPState × SnoozCommandResultStatus
  | p, [] => p
  | (s, st), e :: es =>
      match cpStep s e with
      | some s2 => cpRunFull (s2, applyStatus st e) es
      | none => cpRunFull (s, st) es

/-- Number of transitions *into* `COMPLETE` along a trace.  `_on_complete`
(which resolves the result future) is the `on_enter` callback of `COMPLETE`,
so it runs exactly once per such entry. -/
def completeEntries : CPState → List CPEvent → ℕ
  | _, [] => 0
  | s, e :: es =>
      match cpStep s e with
      | some s2 =>
          (if s ≠ CPState.complete ∧ s2 = CPState.complete then 1 else 0) +
            completeEntries s2 es
      | none => completeEntries s es

/-! ## Immediate command (commands.py, `WriteDeviceStateCommand`) -/

/-- `WriteDeviceStateCommand._async_execute`: the api calls it performs, in
program order. -/
def writeDeviceStateExec (cmd : SnoozCommandData) : List ApiCall :=
  (match cmd.volume with | some v => [ApiCall.setVolume v] | none => []) ++
  (match cmd.on_ with | some b => [ApiCall.setPower b] | none => []) ++
  (match cmd.fan_speed with | some v => [ApiCall.setFanSpeed v] | none => []) ++
  (match cmd.fan_on with | some b => [ApiCall.setFanPower b] | none => []) ++
  (match cmd.auto_temp_enabled with
    | some b => [ApiCall.setAutoTempEnabled b] | none => []) ++
  (match cmd.temp_target with
    | some t => [ApiCall.setAutoTempEnabled true, ApiCall.setAutoTempThreshold t]
    | none => [])

/-- The write sequence asserted by the claim: one write per requested field in
the order volume, power, fan power, fan speed, auto-temp, temp-target.
Stated from the claim's words, for comparison with `writeDeviceStateExec`. -/
def claimedWriteOrder (cmd : SnoozCommandData) : List ApiCall :=
  (match cmd.volume with | some v => [ApiCall.setVolume v] | none => []) ++
  (match cmd.on_ with | some b => [ApiCall.setPower b] | none => []) ++
  (match cmd.fan_on with | some b => [ApiCall.setFanPower b] | none => []) ++
  (match cmd.fan_speed with | some v => [ApiCall.setFanSpeed v] | none => []) ++
  (match cmd.auto_temp_enabled with
    | some b => [ApiCall.setAutoTempEnabled b] | none => []) ++
  (match cmd.temp_target with
    | some t => [ApiCall.setAutoTempThreshold t] | none => [])

/-- The amended write sequence: the source's field order (fan speed before fan
power) and the extra enable-auto-temp write preceding the threshold write. -/
def amendedWriteOrder (cmd : SnoozCommandData) : List ApiCall :=
  (match cmd.volume with | some v => [ApiCall.setVolume v] | none => []) ++
  (match cmd.on_ with | some b => [ApiCall.setPower b] | none => []) ++
  (match cmd.fan_speed with | some v => [ApiCall.setFanSpeed v] | none => []) ++
  (match cmd.fan_on with | some b => [ApiCall.setFanPower b] | none => []) ++
  (match cmd.auto_temp_enabled with
    | some b => [ApiCall.setAutoTempEnabled b] | none => []) ++
  (match cmd.temp_target with
    | some t => [ApiCall.setAutoTempEnabled true, ApiCall.setAutoTempThreshold t]
    | none => [])

/-! ## Connection manager disconnect handling (device.py) -/

/-- `DisconnectionReason` from device.py. -/
inductive DisconnectionReason
  | user
  | device
  | deviceUnavailable
  | unexpectedError
deriving DecidableEq, Repr

/-- The externally visible actions `SnoozDevice._on_device_disconnected` can
take, in program order. -/
inductive DisconnectEffect
  | completeCommandDeviceUnavailable
  | completeCommandUnexpectedError
  | commandOnDisconnected
  | setConnectionsExhausted
  | scheduleReconnect
deriving DecidableEq, Repr

/-- `SnoozDevice._on_device_disconnected`, as a function of the disconnect
reason, the current `_connection_attempts` counter, and the state of the
current command processor (`none` when `_current_command is None`).  Returns
the effects performed, in order, and the new attempts counter. -/
def onDeviceDisconnected (reason : DisconnectionReason) (attempts : ℕ)
    (currentCommand : Option CPState) : List DisconnectEffect × ℕ :=
  if reason = DisconnectionReason.user then ([], attempts)
  else if attempts ≥ MAX_RECONNECTION_ATTEMPTS then
    ((match currentCommand with
      | some s =>
          if s ≠ CPState.complete
          then [DisconnectEffect.completeCommandDeviceUnavailable] else []
      | none => []) ++ [DisconnectEffect.setConnectionsExhausted], 0)
  else
    match currentCommand with
    | some _ =>
        if reason = DisconnectionReason.unexpectedError then
          ([DisconnectEffect.completeCommandUnexpectedError], attempts)
        else
          ([DisconnectEffect.commandOnDisconnected,
            DisconnectEffect.scheduleReconnect], attempts)
    | none => ([DisconnectEffect.scheduleReconnect], attempts)

/-! ## State-change dispatch (device.py, `_on_receive_device_state`) -/

/-- The manager's held snapshot together with whether it *is* (object
identity) the module-level `UnknownSnoozState` singleton, which the source
tests with `self.state is UnknownSnoozState`. -/
structure HeldSnapshot where
  state : SnoozDeviceState
  isUnknownSingleton : Bool
deriving DecidableEq, Repr

/-- `SnoozDevice.__init__` sets `self.state = UnknownSnoozState` (the
singleton object itself). -/
def initialHeld : HeldSnapshot := ⟨UnknownSnoozState, true⟩

/-- The `was_changed` expression of `_on_receive_device_state`:
`self.state is UnknownSnoozState or new_state != self.state`. -/
def wasChanged (held : HeldSnapshot) (newState : SnoozDeviceState) : Bool :=
  held.isUnknownSingleton || decide (newState ≠ held.state)

/-- `_on_receive_device_state`: stores the received state (a fresh object
built by `unpack_state`, never the singleton) and reports whether
`on_state_change` was emitted. -/
def receiveDeviceState (held : HeldSnapshot) (newState : SnoozDeviceState) :
    HeldSnapshot × Bool :=
  (⟨newState, false⟩, wasChanged held newState)

/-- The emission flags produced by a sequence of received updates. -/
def emissions (held : HeldSnapshot) : List SnoozDeviceState → List Bool
  | [] => []
  | s :: ss => (receiveDeviceState held s).2 :: emissions (receiveDeviceState held s).1 ss

/-- Emission pattern of updates after the first: emit exactly when the update
differs from the previous one. -/
def pairwiseDiff : SnoozDeviceState → List SnoozDeviceState → List Bool
  | _, [] => []
  | prev, v :: vs => decide (v ≠ prev) :: pairwiseDiff v vs

/-- Comparison sequence for the amended claim: the first update always emits;
each later update emits exactly when it differs from the previous one. -/
def emissionsSpec : List SnoozDeviceState → List Bool
  | [] => []
  | u :: us => true :: pairwiseDiff u us

/-! ## Transition engine (transition.py, `Transition._async_run`) -/

/-- An observable action of the transition engine: an `on_update` call with a
value, or the final `on_complete` call. -/
inductive TEvent
  | update (v : ℚ)
  | complete
deriving DecidableEq, Repr

/-- The interpolation computed each tick:
`start_value + (end_value - start_value) * ((current_time - start_time) / duration)`. -/
def interpValue (sv ev st d t : ℚ) : ℚ :=
  sv + (ev - sv) * ((t - st) / d)

/-- `Transition._async_run` without cancellation, driven by the successive
`datetime.now()` samples of its while loop: while the sample is at most
`start_time + duration` it dispatches an interpolated update; at the first
sample past the end time it leaves the loop and dispatches `on_update(end)`
then `on_complete()`.  An empty sample list models a run still in progress. -/
def transitionRun (sv ev st d : ℚ) : List ℚ → List TEvent
  | [] => []
  | t :: ts =>
      if t ≤ st + d then TEvent.update (interpValue sv ev st d t) :: transitionRun sv ev st d ts
      else [TEvent.update ev, TEvent.complete]

/-! ## Transitioned command (commands.py, `TransitionedCommand`) -/

/-- The two `DeviceFeatureControls` implementations (`SoundControls`,
`FanControls`). -/
inductive Feature
  | sound
  | fan
deriving DecidableEq, Repr

/-- `min_percent` of each feature's controls. -/
def minPercent : Feature → ℤ
  | .sound => MIN_DEVICE_VOLUME
  | .fan => MIN_FAN_SPEED

/-- `get_command_power`. -/
def getCommandPower (f : Feature) (cmd : SnoozCommandData) : Option Bool :=
  match f with
  | .sound => cmd.on_
  | .fan => cmd.fan_on

/-- `get_command_percent`. -/
def getCommandPercent (f : Feature) (cmd : SnoozCommandData) : Option ℤ :=
  match f with
  | .sound => cmd.volume
  | .fan => cmd.fan_speed

/-- `get_power`. -/
def getPower (f : Feature) (st : SnoozDeviceState) : Option Bool :=
  match f with
  | .sound => st.on_
  | .fan => st.fan_on

/-- `get_percent`. -/
def getPercent (f : Feature) (st : SnoozDeviceState) : Option ℤ :=
  match f with
  | .sound => st.volume
  | .fan => st.fan_speed

/-- `async_set_power` of each feature's controls, as an `ApiCall`. -/
def setPowerCall (f : Feature) (b : Bool) : ApiCall :=
  match f with
  | .sound => ApiCall.setPower b
  | .fan => ApiCall.setFanPower b

/-- `async_set_percent` of each feature's controls, as an `ApiCall`. -/
def setPercentCall (f : Feature) (v : ℤ) : ApiCall :=
  match f with
  | .sound => ApiCall.setVolume v
  | .fan => ApiCall.setFanSpeed v

/-- `TransitionedCommand.__init__`: the `_features` list built from the
command data. -/
def features (cmd : SnoozCommandData) : List Feature :=
  (if cmd.on_ ≠ none ∨ cmd.volume ≠ none then [Feature.sound] else []) ++
  (if cmd.fan_on ≠ none ∨ cmd.fan_speed ≠ none then [Feature.fan] else [])

/-- `ControlsTransition` from commands.py. -/
structure ControlsTransition where
  feature : Feature
  turningOn : Option Bool
  startPercent : ℤ
  endPercent : ℤ
deriving DecidableEq, Repr

/-- Python's `round` (banker's rounding, half to even) on an exact rational,
followed by `int(...)` (the identity on an integral result). -/
def pyRound (q : ℚ) : ℤ :=
  let f := ⌊q⌋
  let r := q - f
  if r < 1 / 2 then f
  else if 1 / 2 < r then f + 1
  else if f % 2 = 0 then f else f + 1

/-- `last_percent.get(transition.name, None)`: lookup in the dict keyed by
the feature's name (names are distinct per feature). -/
def lookupPercent : List (Feature × ℤ) → Feature → Option ℤ
  | [], _ => none
  | (g, w) :: rest, f => if g = f then some w else lookupPercent rest f

/-- `last_percent[transition.name] = next_percent`: dict assignment. -/
def setEntry : List (Feature × ℤ) → Feature → ℤ → List (Feature × ℤ)
  | [], f, v => [(f, v)]
  | (g, w) :: rest, f, v =>
      if g = f then (f, v) :: rest else (g, w) :: setEntry rest f v

/-- `next_percent` in the `on_update` callback:
`int(round(start + (end - start) * progress))`. -/
def nextPercent (c : ControlsTransition) (p : ℚ) : ℤ :=
  pyRound ((c.startPercent : ℚ) + ((c.endPercent : ℚ) - (c.startPercent : ℚ)) * p)

/-- One `on_update(progress)` callback of `_async_transition_controls`: for
each control, compute the rounded interpolated percent and write it only when
it differs from the last written percent for that feature. -/
def rampUpdate : List ControlsTransition → List (Feature × ℤ) → ℚ →
    List (Feature × ℤ) × List ApiCall
  | [], last, _ => (last, [])
  | c :: cs, last, p =>
      let next := nextPercent c p
      let step :=
        if lookupPercent last c.feature = some next
        then (last, ([] : List ApiCall))
        else (setEntry last c.feature next, [setPercentCall c.feature next])
      let rest := rampUpdate cs step.1 p
      (rest.1, step.2 ++ rest.2)

/-- The writes of the whole ramp: `on_update` once per delivered progress
value, threading the last-written percents. -/
def rampRun (controls : List ControlsTransition) (last : List (Feature × ℤ)) :
    List ℚ → List ApiCall
  | [] => []
  | p :: ps =>
      (rampUpdate controls last p).2 ++ rampRun controls (rampUpdate controls last p).1 ps

/-- The `on_complete` callback of `_async_transition_controls`: for every
control not turning on (Python truthiness: `turning_on` is `None` or `False`),
power the feature off, then restore the starting percent captured on first
read when it is known. -/
def completeWrites (startingState : Option SnoozDeviceState) :
    List ControlsTransition → List ApiCall
  | [] => []
  | c :: cs =>
      if pyTruthy c.turningOn then completeWrites startingState cs
      else
        ([setPowerCall c.feature false] ++
          (match (match startingState with
                  | some st => getPercent c.feature st
                  | none => none) with
            | some v => [setPercentCall c.feature v]
            | none => [])) ++ completeWrites startingState cs

/-- `TransitionedCommand._async_transition_controls` run to completion without
cancellation: no-op when every control already starts at its end percent,
otherwise the ramp writes for the delivered interpolation ticks followed by
the exact end value `1.0` (see `transitionRun`), then the completion writes. -/
def transitionControls (startingState : Option SnoozDeviceState)
    (controls : List ControlsTransition) (ticks : List ℚ) : List ApiCall :=
  if controls.all (fun c => c.startPercent = c.endPercent) then []
  else
    rampRun controls (controls.map fun c => (c.feature, c.startPercent)) (ticks ++ [1]) ++
      completeWrites startingState controls

/-- The start percent computed per feature in `_async_execute`:
`(current_percent if current_power else feature.min_percent) if command_power
else current_percent`. -/
def computeStart (f : Feature) (cur : SnoozDeviceState) (cmd : SnoozCommandData) :
    Option ℤ :=
  if pyTruthy (getCommandPower f cmd) then
    (if pyTruthy (getPower f cur) then getPercent f cur else some (minPercent f))
  else getPercent f cur

/-- The end percent computed per feature in `_async_execute`:
`(command_percent or current_percent) if command_power else feature.min_percent`. -/
def computeEnd (f : Feature) (cur : SnoozDeviceState) (cmd : SnoozCommandData) :
    Option ℤ :=
  if pyTruthy (getCommandPower f cmd) then
    pyOrInt (getCommandPercent f cmd) (getPercent f cur)
  else some (minPercent f)

/-- The per-feature loop of `_async_execute` before the ramp: raises
`ValueError` when a computed percent is `None`; when turning a feature on
while it is currently off, writes the start percent then powers on; collects
the `ControlsTransition` list.  (On the error path the writes already issued
are not reported; no claim exercises it.) -/
def buildControls (cmd : SnoozCommandData) (cur : SnoozDeviceState) :
    List Feature → Except String (List ApiCall × List ControlsTransition)
  | [] => Except.ok ([], [])
  | f :: fs =>
      match computeStart f cur cmd with
      | none => Except.error "Start percent was None"
      | some s =>
          match computeEnd f cur cmd with
          | none => Except.error "End percent was None"
          | some e =>
              let pre :=
                if pyTruthy (getCommandPower f cmd) ∧ ¬ pyTruthy (getPower f cur)
                then [setPercentCall f s, setPowerCall f true] else []
              match buildControls cmd cur fs with
              | Except.error msg => Except.error msg
              | Except.ok (pres, cs) =>
                  Except.ok (pre ++ pres,
                    ControlsTransition.mk f (getCommandPower f cmd) s e :: cs)

/-- The immediate catch-up branch of `_async_execute` (taken when
`_remaining_duration.seconds <= 0`): per feature, write the command power when
it differs from the current power; write the command percent when present and
different from the current percent; otherwise, when no percent was requested
and the command power is falsy, restore the starting percent when known. -/
def catchUpWrites (cmd : SnoozCommandData) (startingState cur : SnoozDeviceState) :
    List Feature → List ApiCall
  | [] => []
  | f :: fs =>
      (match getCommandPower f cmd with
        | some b => if some b ≠ getPower f cur then [setPowerCall f b] else []
        | none => []) ++
      (match getCommandPercent f cmd with
        | some v => if some v ≠ getPercent f cur then [setPercentCall f v] else []
        | none =>
            if pyTruthy (getCommandPower f cmd) then []
            else
              match getPercent f startingState with
              | some sp => [setPercentCall f sp]
              | none => []) ++
      catchUpWrites cmd startingState cur fs

/-- The resumption bookkeeping at the top of `_async_execute`: the remaining
duration is reduced by the time disconnected, floored at a zero timedelta. -/
def updateRemaining (remaining elapsed : Timedelta) : Timedelta :=
  if elapsed.micros > remaining.micros then ⟨0⟩
  else ⟨remaining.micros - elapsed.micros⟩

/-- `TransitionedCommand._async_execute` after the duration bookkeeping: reads
the device state (captured as the starting state when this is the first
attempt), then either the immediate catch-up writes (when the whole-seconds
component of the remaining duration is zero) or the per-feature setup followed
by the shared 0→1 transition. -/
def transitionedExec (cmd : SnoozCommandData) (startingState0 : Option SnoozDeviceState)
    (remaining : Timedelta) (cur : SnoozDeviceState) (ticks : List ℚ) :
    Except String (List ApiCall) :=
  let startingState := startingState0.getD cur
  if tdSeconds remaining ≤ 0 then
    Except.ok (ApiCall.readState :: catchUpWrites cmd startingState cur (features cmd))
  else
    match buildControls cmd cur (features cmd) with
    | Except.error msg => Except.error msg
    | Except.ok (pre, controls) =>
        Except.ok (ApiCall.readState ::
          (pre ++ transitionControls (some startingState) controls ticks))

/-- Specialization of the ramp to a single control: the written percents,
threading the last written value (which starts at the start percent). -/
def ramp1 (c : ControlsTransition) : ℤ → List ℚ → List ApiCall
  | _, [] => []
  | l, p :: ps =>
      if l = nextPercent c p then ramp1 c l ps
      else setPercentCall c.feature (nextPercent c p) :: ramp1 c (nextPercent c p) ps

/-- The last tracked percent after a single-control ramp (after any delivered
progress value the tracked percent equals that value's rounded interpolation,
whether or not a write was needed). -/
def ramp1Last (c : ControlsTransition) : ℤ → List ℚ → ℤ
  | l, [] => l
  | _, p :: ps => ramp1Last c (nextPercent c p) ps

/-! ## Supporting lemmas -/

theorem pyRound_intCast (n : ℤ) : pyRound (n : ℚ) = n := by
  simp [pyRound, Int.floor_intCast]

theorem nextPercent_one (c : ControlsTransition) : nextPercent c 1 = c.endPercent := by
  have h : ((c.startPercent : ℚ) + ((c.endPercent : ℚ) - (c.startPercent : ℚ)) * 1) =
      (c.endPercent : ℚ) := by ring
  rw [nextPercent, h, pyRound_intCast]

theorem rampRun_singleton (c : ControlsTransition) (l : ℤ) (ps : List ℚ) :
    rampRun [c] [(c.feature, l)] ps = ramp1 c l ps := by
  induction ps generalizing l with
  | nil => rfl
  | cons p ps ih =>
      by_cases h : l = nextPercent c p
      · simp [rampRun, rampUpdate, lookupPercent, h, ramp1, ih]
      · simp [rampRun, rampUpdate, lookupPercent, setEntry, h, ramp1, ih]

theorem ramp1_nil_last (c : ControlsTransition) (l : ℤ) (ps : List ℚ)
    (h : ramp1 c l ps = []) : ramp1Last c l ps = l := by
  induction ps generalizing l with
  | nil => rfl
  | cons p ps ih =>
      by_cases hl : l = nextPercent c p
      · rw [ramp1, if_pos hl] at h
        rw [ramp1Last, ← hl]
        exact ih l h
      · rw [ramp1, if_neg hl] at h
        exact absurd h (List.cons_ne_nil _ _)

theorem ramp1_last_write (c : ControlsTransition) (l : ℤ) (ps : List ℚ)
    (h : ramp1 c l ps ≠ []) :
    ∃ ws, ramp1 c l ps = ws ++ [setPercentCall c.feature (ramp1Last c l ps)] := by
  induction ps generalizing l with
  | nil => exact absurd rfl h
  | cons p ps ih =>
      by_cases hl : l = nextPercent c p
      · rw [ramp1, if_pos hl] at h ⊢
        rw [ramp1Last, ← hl]
        exact ih l h
      · rw [ramp1, if_neg hl]
        rw [ramp1Last]
        by_cases h2 : ramp1 c (nextPercent c p) ps = []
        · refine ⟨[], ?_⟩
          rw [h2, ramp1_nil_last c _ ps h2]
          rfl
        · obtain ⟨ws, hws⟩ := ih (nextPercent c p) h2
          exact ⟨setPercentCall c.feature (nextPercent c p) :: ws, by rw [hws]; rfl⟩

theorem ramp1Last_append_one (c : ControlsTransition) (l : ℤ) (ps : List ℚ) :
    ramp1Last c l (ps ++ [1]) = c.endPercent := by
  induction ps generalizing l with
  | nil => simp [ramp1Last, nextPercent_one]
  | cons p ps ih => rw [List.cons_append, ramp1Last]; exact ih _

theorem ramp1_final_write (c : ControlsTransition)
    (hne : c.startPercent ≠ c.endPercent) (ps : List ℚ) :
    ∃ ws, ramp1 c c.startPercent (ps ++ [1]) =
      ws ++ [setPercentCall c.feature c.endPercent] := by
  have hlast : ramp1Last c c.startPercent (ps ++ [1]) = c.endPercent :=
    ramp1Last_append_one c _ ps
  have hnonempty : ramp1 c c.startPercent (ps ++ [1]) ≠ [] := by
    intro h
    exact hne (by rw [← ramp1_nil_last c _ _ h, hlast])
  obtain ⟨ws, hws⟩ := ramp1_last_write c _ _ hnonempty
  rw [hlast] at hws
  exact ⟨ws, hws⟩

theorem completeEntries_complete (es : List CPEvent) :
    completeEntries CPState.complete es = 0 := by
  induction es with
  | nil => rfl
  | cons e es ih => cases e <;> simpa [completeEntries, cpStep] using ih

theorem completeEntries_le_one (s : CPState) (es : List CPEvent) :
    completeEntries s es ≤ 1 := by
  induction es generalizing s with
  | nil => simp [completeEntries]
  | cons e es ih =>
      rw [completeEntries]
      cases h : cpStep s e with
      | none => exact ih s
      | some s2 =>
          by_cases h2 : s2 = CPState.complete
          · subst h2
            simp [completeEntries_complete]
            split <;> simp
          · simp [h2]
            exact ih s2

/-! ## Claim theorems -/

/-- C1: every transition into the `COMPLETE` state happens at most once along
any event trace (so `_on_complete`, which resolves the result future, runs at
most once per command no matter how many disconnect/re-execute cycles occur),
and `COMPLETE` is terminal: no event has a registered transition out of it. -/
theorem command_processor_complete_once_and_terminal :
    (∀ e, cpStep CPState.complete e = none) ∧
    (∀ es : List CPEvent, completeEntries CPState.idle es ≤ 1) :=
  ⟨fun e => by cases e <;> rfl, fun es => completeEntries_le_one _ es⟩

/-- C2 counterexample: for the command requesting fan power and fan speed
(and a target temperature), the write sequence performed by
`WriteDeviceStateCommand` differs from the order the claim states (fan power
before fan speed, one write per field). -/
theorem write_order_claim_counterexample :
    writeDeviceStateExec
        { fan_on := some true, fan_speed := some 50, temp_target := some 70 } ≠
      claimedWriteOrder
        { fan_on := some true, fan_speed := some 50, temp_target := some 70 } := by
  decide

/-- C2 amended: for every command, execution writes exactly the requested
fields in the fixed field order volume, power, fan speed, fan power,
auto-temp, temp-target, skipping absent fields, with one write per field
except temp-target, which writes enable-auto-temp followed by the threshold;
and no read of device state occurs. -/
theorem write_device_state_order (cmd : SnoozCommandData) :
    writeDeviceStateExec cmd = amendedWriteOrder cmd ∧
    ApiCall.readState ∉ writeDeviceStateExec cmd := by
  refine ⟨rfl, ?_⟩
  obtain ⟨o, v, du, fo, fs, tt, ate, ac⟩ := cmd
  cases o <;> cases v <;> cases fo <;> cases fs <;> cases tt <;> cases ate <;>
    simp [writeDeviceStateExec]

/-- C5: on a non-user disconnect with the attempt counter at
`MAX_RECONNECTION_ATTEMPTS` or more while a not-yet-complete command is
active, the handler completes that command with device-unavailable, marks the
connections exhausted, resets the attempt counter to zero, and schedules no
reconnect task. -/
theorem disconnect_exhausted_attempts (reason : DisconnectionReason)
    (attempts : ℕ) (s : CPState) (hr : reason ≠ DisconnectionReason.user)
    (ha : MAX_RECONNECTION_ATTEMPTS ≤ attempts) (hs : s ≠ CPState.complete) :
    onDeviceDisconnected reason attempts (some s) =
      ([DisconnectEffect.completeCommandDeviceUnavailable,
        DisconnectEffect.setConnectionsExhausted], 0) ∧
    DisconnectEffect.scheduleReconnect ∉
      (onDeviceDisconnected reason attempts (some s)).1 := by
  have h1 : onDeviceDisconnected reason attempts (some s) =
      ([DisconnectEffect.completeCommandDeviceUnavailable,
        DisconnectEffect.setConnectionsExhausted], 0) := by
    simp [onDeviceDisconnected, hr, hs, ge_iff_le, ha]
  refine ⟨h1, ?_⟩
  rw [h1]
  decide

theorem disconnect_exhausted_attempts_witness :
    (DisconnectionReason.device ≠ DisconnectionReason.user ∧
     MAX_RECONNECTION_ATTEMPTS ≤ 3 ∧ CPState.executing ≠ CPState.complete) ∧
    (onDeviceDisconnected DisconnectionReason.device 3 (some CPState.executing) =
      ([DisconnectEffect.completeCommandDeviceUnavailable,
        DisconnectEffect.setConnectionsExhausted], 0) ∧
     DisconnectEffect.scheduleReconnect ∉
      (onDeviceDisconnected DisconnectionReason.device 3 (some CPState.executing)).1) :=
  ⟨by decide,
   disconnect_exhausted_attempts DisconnectionReason.device 3 CPState.executing
     (by decide) (by decide) (by decide)⟩

/-- C6 counterexample: an unexpected-error disconnect arriving when the
attempt counter has already reached `MAX_RECONNECTION_ATTEMPTS` completes the
active executing command with device-unavailable, not unexpected-error — the
claim's "regardless of how many connection attempts have already been made"
fails. -/
theorem unexpected_error_claim_counterexample :
    onDeviceDisconnected DisconnectionReason.unexpectedError
        MAX_RECONNECTION_ATTEMPTS (some CPState.executing) =
      ([DisconnectEffect.completeCommandDeviceUnavailable,
        DisconnectEffect.setConnectionsExhausted], 0) ∧
    DisconnectEffect.completeCommandUnexpectedError ∉
      (onDeviceDisconnected DisconnectionReason.unexpectedError
        MAX_RECONNECTION_ATTEMPTS (some CPState.executing)).1 := by
  decide

/-- C6 amended: on an unexpected-error disconnect with an active command, when
fewer than `MAX_RECONNECTION_ATTEMPTS` connection attempts have been made, the
handler immediately completes the current command with unexpected-error and
schedules no reconnect (with the bound reached, the device-unavailable branch
takes precedence instead). -/
theorem disconnect_unexpected_error (attempts : ℕ) (s : CPState)
    (ha : attempts < MAX_RECONNECTION_ATTEMPTS) :
    onDeviceDisconnected DisconnectionReason.unexpectedError attempts (some s) =
      ([DisconnectEffect.completeCommandUnexpectedError], attempts) ∧
    DisconnectEffect.scheduleReconnect ∉
      (onDeviceDisconnected DisconnectionReason.unexpectedError attempts (some s)).1 := by
  have h1 : onDeviceDisconnected DisconnectionReason.unexpectedError attempts (some s) =
      ([DisconnectEffect.completeCommandUnexpectedError], attempts) := by
    simp [onDeviceDisconnected, ge_iff_le, Nat.not_le.mpr ha]
  refine ⟨h1, ?_⟩
  rw [h1]
  simp

theorem disconnect_unexpected_error_witness :
    (0 < MAX_RECONNECTION_ATTEMPTS) ∧
    (onDeviceDisconnected DisconnectionReason.unexpectedError 0 (some CPState.executing) =
      ([DisconnectEffect.completeCommandUnexpectedError], 0) ∧
     DisconnectEffect.scheduleReconnect ∉
      (onDeviceDisconnected DisconnectionReason.unexpectedError 0
        (some CPState.executing)).1) :=
  ⟨by decide, disconnect_unexpected_error 0 CPState.executing (by decide)⟩

theorem emissions_known (prev : SnoozDeviceState) (us : List SnoozDeviceState) :
    emissions ⟨prev, false⟩ us = pairwiseDiff prev us := by
  induction us generalizing prev with
  | nil => rfl
  | cons v vs ih =>
      simp [emissions, receiveDeviceState, wasChanged, pairwiseDiff, ih]

/-- C7 counterexample: with the held snapshot still the initial
`UnknownSnoozState` singleton, receiving a state equal to the unknown state
emits a `on_state_change` event even though the update does not differ from
the held snapshot (the `self.state is UnknownSnoozState` disjunct fires). -/
theorem state_change_claim_counterexample :
    (receiveDeviceState initialHeld UnknownSnoozState).2 = true ∧
    UnknownSnoozState = initialHeld.state := by
  decide

/-- C7 amended: starting from the initial unknown-singleton snapshot, the
first authoritative update always emits a state-changed event (even when it
equals the unknown snapshot), and every later update emits exactly when it
differs from the previously held snapshot. -/
theorem state_change_emissions (us : List SnoozDeviceState) :
    emissions initialHeld us = emissionsSpec us := by
  cases us with
  | nil => rfl
  | cons u rest =>
      rw [emissionsSpec]
      show wasChanged initialHeld u ::
        emissions ⟨u, false⟩ rest = true :: pairwiseDiff u rest
      rw [emissions_known]
      rfl

/-- C3: the remaining duration of a resumed transition is reduced by the time
disconnected and floored at zero, as the claim says; but the immediate
catch-up branch tests `remaining_duration.seconds <= 0` — the whole-seconds
component, ignoring microseconds — so a `turn_off(duration=10s)` resumed after
a 9.6 second disconnect has a nonzero remaining duration of 0.4 s and still
takes the catch-up path (write target power directly and restore the starting
volume), contradicting the claim (and the source's own comment that this path
means the disconnect outlasted the whole transition). -/
theorem remaining_duration_code_bug :
    updateRemaining ⟨10000000⟩ ⟨9600000⟩ = ⟨400000⟩ ∧
    (updateRemaining ⟨10000000⟩ ⟨9600000⟩).micros ≠ 0 ∧
    transitionedExec (turn_off (some ⟨10000000⟩)) none
        (updateRemaining ⟨10000000⟩ ⟨9600000⟩)
        { on_ := some true, volume := some 36 } [] =
      Except.ok [ApiCall.readState, ApiCall.setPower false, ApiCall.setVolume 36] := by
  refine ⟨rfl, by decide, ?_⟩
  rfl

/-- C8: a transition run whose clock samples reach past the end time without
cancellation delivers one interpolated `on_update` per tick with value
`start + (end - start) * (elapsed / duration)`, then `on_update(end)` exactly
once after the last interpolated tick, then `on_complete()` exactly once. -/
theorem transition_run_to_end (sv ev st d : ℚ) (samples : List ℚ)
    (h : ∃ t ∈ samples, st + d < t) :
    transitionRun sv ev st d samples =
      (samples.takeWhile (fun t => decide (t ≤ st + d))).map
        (fun t => TEvent.update (interpValue sv ev st d t)) ++
      [TEvent.update ev, TEvent.complete] := by
  induction samples with
  | nil => simp at h
  | cons t ts ih =>
      by_cases hle : t ≤ st + d
      · have h2 : ∃ u ∈ ts, st + d < u := by
          obtain ⟨u, hu, hlt⟩ := h
          rcases List.mem_cons.mp hu with rfl | hu2
          · exact absurd hle (not_le.mpr hlt)
          · exact ⟨u, hu2, hlt⟩
        rw [transitionRun, if_pos hle, ih h2, List.takeWhile_cons]
        simp [hle]
      · rw [transitionRun, if_neg hle, List.takeWhile_cons]
        simp [hle]

theorem transition_run_to_end_witness :
    (∃ t ∈ ([0, 1/2, 2] : List ℚ), (0 : ℚ) + 1 < t) ∧
    transitionRun 0 1 0 1 [0, 1/2, 2] =
      (([0, 1/2, 2] : List ℚ).takeWhile (fun t => decide (t ≤ (0 : ℚ) + 1))).map
        (fun t => TEvent.update (interpValue 0 1 0 1 t)) ++
      [TEvent.update 1, TEvent.complete] := by
  have hw : ∃ t ∈ ([0, 1/2, 2] : List ℚ), (0 : ℚ) + 1 < t :=
    ⟨2, by norm_num, by norm_num⟩
  exact ⟨hw, transition_run_to_end 0 1 0 1 [0, 1/2, 2] hw⟩

theorem features_turn_off (d : Option Timedelta) :
    features (turn_off d) = [Feature.sound] := by
  simp [features, turn_off]

theorem features_turn_on (v : Option ℤ) (d : Option Timedelta) :
    features (turn_on v d) = [Feature.sound] := by
  simp [features, turn_on]

theorem buildControls_turn_off (d : Option Timedelta) (cur : SnoozDeviceState)
    (v : ℤ) (hv : cur.volume = some v) :
    buildControls (turn_off d) cur [Feature.sound] =
      Except.ok ([], [⟨Feature.sound, some false, v, MIN_DEVICE_VOLUME⟩]) := by
  simp [buildControls, computeStart, computeEnd, getCommandPower, getCommandPercent,
    getPercent, getPower, pyTruthy, pyOrInt, turn_off, hv, minPercent]

theorem buildControls_turn_on_from_off (v : ℤ) (d : Option Timedelta)
    (cur : SnoozDeviceState) (hon : cur.on_ = some false) (hv0 : v ≠ 0) :
    buildControls (turn_on (some v) d) cur [Feature.sound] =
      Except.ok ([setPercentCall Feature.sound MIN_DEVICE_VOLUME,
                  setPowerCall Feature.sound true],
        [⟨Feature.sound, some true, MIN_DEVICE_VOLUME, v⟩]) := by
  simp [buildControls, computeStart, computeEnd, getCommandPower, getCommandPercent,
    getPercent, getPower, pyTruthy, pyOrInt, turn_on, hon, hv0, minPercent]

/-- C10: a transitioned command in which every affected feature already starts
at its end percent — here `turn_off` with a duration while the current volume
already equals the minimum effective percent — performs no write at all for
the ramp phase (in particular no power-off write and no restore write, only
the initial state read), and the processor completes normally with status
successful. -/
theorem transition_noop_short_circuit (d remaining : Timedelta)
    (cur : SnoozDeviceState) (ticks : List ℚ)
    (hvol : cur.volume = some MIN_DEVICE_VOLUME) (hrem : 0 < tdSeconds remaining) :
    transitionedExec (turn_off (some d)) none remaining cur ticks =
      Except.ok [ApiCall.readState] ∧
    cpRunFull (CPState.idle, SnoozCommandResultStatus.successful)
        [CPEvent.startExecution, CPEvent.executionComplete] =
      (CPState.complete, SnoozCommandResultStatus.successful) := by
  refine ⟨?_, rfl⟩
  have hnot : ¬ tdSeconds remaining ≤ 0 := not_le.mpr hrem
  rw [transitionedExec]
  simp only [features_turn_off, Option.getD]
  rw [if_neg hnot, buildControls_turn_off (some d) cur MIN_DEVICE_VOLUME hvol]
  simp only [transitionControls]
  rw [if_pos (by simp)]
  rfl

theorem transition_noop_short_circuit_witness :
    ((SnoozDeviceState.volume { on_ := some true, volume := some 10 } =
        some MIN_DEVICE_VOLUME) ∧ 0 < tdSeconds ⟨5000000⟩) ∧
    (transitionedExec (turn_off (some ⟨10000000⟩)) none ⟨5000000⟩
        { on_ := some true, volume := some 10 } [] =
      Except.ok [ApiCall.readState] ∧
     cpRunFull (CPState.idle, SnoozCommandResultStatus.successful)
        [CPEvent.startExecution, CPEvent.executionComplete] =
      (CPState.complete, SnoozCommandResultStatus.successful)) :=
  ⟨by decide,
   transition_noop_short_circuit ⟨10000000⟩ ⟨5000000⟩
     { on_ := some true, volume := some 10 } [] (by decide) (by decide)⟩

/-- C4: a transitioned command turning the sound feature off (command power
false) that runs to completion without cancellation or disconnect ends with
exactly three writes for that feature: set the volume to the minimum
effective percent, power off, then restore the starting volume captured on
the first state read, in that order. -/
theorem transition_off_final_writes (d remaining : Timedelta)
    (cur : SnoozDeviceState) (v : ℤ) (ticks : List ℚ)
    (hvol : cur.volume = some v) (hv : v ≠ MIN_DEVICE_VOLUME)
    (hrem : 0 < tdSeconds remaining) :
    ∃ ws, transitionedExec (turn_off (some d)) none remaining cur ticks =
      Except.ok (ApiCall.readState :: (ws ++
        [ApiCall.setVolume MIN_DEVICE_VOLUME, ApiCall.setPower false,
         ApiCall.setVolume v])) := by
  have hnot : ¬ tdSeconds remaining ≤ 0 := not_le.mpr hrem
  obtain ⟨ws, hws⟩ :=
    ramp1_final_write ⟨Feature.sound, some false, v, MIN_DEVICE_VOLUME⟩ hv ticks
  refine ⟨ws, ?_⟩
  rw [transitionedExec]
  simp only [features_turn_off, Option.getD]
  rw [if_neg hnot, buildControls_turn_off (some d) cur v hvol]
  simp only [transitionControls]
  rw [if_neg (by simp [hv])]
  show Except.ok (ApiCall.readState :: ([] ++
    (rampRun [⟨Feature.sound, some false, v, MIN_DEVICE_VOLUME⟩]
        [(Feature.sound, v)] (ticks ++ [1]) ++
      completeWrites (some cur) [⟨Feature.sound, some false, v, MIN_DEVICE_VOLUME⟩]))) = _
  rw [rampRun_singleton ⟨Feature.sound, some false, v, MIN_DEVICE_VOLUME⟩ v, hws]
  simp [completeWrites, pyTruthy, getPercent, hvol, setPowerCall, setPercentCall]

theorem transition_off_final_writes_witness :
    ((SnoozDeviceState.volume { on_ := some true, volume := some 36 } = some 36) ∧
     (36 : ℤ) ≠ MIN_DEVICE_VOLUME ∧ 0 < tdSeconds ⟨5000000⟩) ∧
    (∃ ws, transitionedExec (turn_off (some ⟨10000000⟩)) none ⟨5000000⟩
        { on_ := some true, volume := some 36 } [] =
      Except.ok (ApiCall.readState :: (ws ++
        [ApiCall.setVolume MIN_DEVICE_VOLUME, ApiCall.setPower false,
         ApiCall.setVolume 36]))) :=
  ⟨by decide,
   transition_off_final_writes ⟨10000000⟩ ⟨5000000⟩
     { on_ := some true, volume := some 36 } 36 [] (by decide) (by decide) (by decide)⟩

/-- C9: a transitioned command turning the sound feature on while the device
has it off first writes the computed start percent (the minimum effective
percent, the feature being off), then writes power on, both before any ramp
write, and the final ramp write is exactly the requested target percent. -/
theorem transition_on_from_off_writes (d remaining : Timedelta)
    (cur : SnoozDeviceState) (v : ℤ) (ticks : List ℚ)
    (hon : cur.on_ = some false)
    (hv0 : v ≠ 0) (hvmin : v ≠ MIN_DEVICE_VOLUME)
    (hrem : 0 < tdSeconds remaining) :
    ∃ ws, transitionedExec (turn_on (some v) (some d)) none remaining cur ticks =
      Except.ok ([ApiCall.readState, ApiCall.setVolume MIN_DEVICE_VOLUME,
        ApiCall.setPower true] ++ (ws ++ [ApiCall.setVolume v])) := by
  have hnot : ¬ tdSeconds remaining ≤ 0 := not_le.mpr hrem
  obtain ⟨ws, hws⟩ :=
    ramp1_final_write ⟨Feature.sound, some true, MIN_DEVICE_VOLUME, v⟩
      (fun h => hvmin h.symm) ticks
  refine ⟨ws, ?_⟩
  rw [transitionedExec]
  simp only [features_turn_on, Option.getD]
  rw [if_neg hnot, buildControls_turn_on_from_off v (some d) cur hon hv0]
  simp only [transitionControls]
  rw [if_neg (by simp; exact fun h => hvmin h.symm)]
  show Except.ok (ApiCall.readState ::
    ([setPercentCall Feature.sound MIN_DEVICE_VOLUME, setPowerCall Feature.sound true] ++
      (rampRun [⟨Feature.sound, some true, MIN_DEVICE_VOLUME, v⟩]
          [(Feature.sound, MIN_DEVICE_VOLUME)] (ticks ++ [1]) ++
        completeWrites (some cur) [⟨Feature.sound, some true, MIN_DEVICE_VOLUME, v⟩]))) = _
  rw [rampRun_singleton ⟨Feature.sound, some true, MIN_DEVICE_VOLUME, v⟩
    MIN_DEVICE_VOLUME, hws]
  simp [completeWrites, pyTruthy, setPowerCall, setPercentCall]

theorem transition_on_from_off_writes_witness :
    ((SnoozDeviceState.on_ { on_ := some false, volume := some 100 } = some false) ∧
     (30 : ℤ) ≠ 0 ∧ (30 : ℤ) ≠ MIN_DEVICE_VOLUME ∧ 0 < tdSeconds ⟨10000000⟩) ∧
    (∃ ws, transitionedExec (turn_on (some 30) (some ⟨10000000⟩)) none ⟨10000000⟩
        { on_ := some false, volume := some 100 } [] =
      Except.ok ([ApiCall.readState, ApiCall.setVolume MIN_DEVICE_VOLUME,
        ApiCall.setPower true] ++ (ws ++ [ApiCall.setVolume 30]))) :=
  ⟨by decide,
   transition_on_from_off_writes ⟨10000000⟩ ⟨10000000⟩
     { on_ := some false, volume := some 100 } 30 [] (by decide) (by decide)
     (by decide) (by decide)⟩
